import Mathlib

/-!
Verification development for the MCP server-lifecycle subsystem of
`backend/mcp_integration.py` (class `MCPClient`).

The Python module manages subprocesses for MCP servers: it loads a
configuration (`load_config`), assigns ports (`_assign_ports`), starts and
stops server processes (`start_server`, `stop_server`), monitors their
health on a background thread (`_monitor_servers`), reports status
(`get_server_status`) and issues tool RPCs (`call_tool`).

The shallow embedding below mirrors the module state (`self.servers`,
`self.active_servers`, `self.processes`, `self.ports`) as association
lists with Python-dict semantics (assignment updates in place, insertion
order is preserved, `pop` removes the key).  Interactions with the
operating system (port probing, process spawning, process exit, signal
delivery, HTTP transport) are passed in as explicit environment/oracle
values, so every function is a pure, executable Lean definition.
-/

namespace MCP

/-- Keys of an association list, in insertion order (dict iteration order). -/
def keys {α : Type} (l : List (String × α)) : List String :=
  l.map Prod.fst

/-- Lookup in an association list: `d[k]` / `d.get(k)`. -/
def alookup {α : Type} (k : String) : List (String × α) → Option α
  | [] => none
  | (k', v') :: rest => if k' = k then some v' else alookup k rest

/-- Python dict assignment `d[k] = v`: updates the existing slot in place
(keeping its position) or appends a fresh key at the end. -/
def dictInsert {α : Type} (k : String) (v : α) : List (String × α) → List (String × α)
  | [] => [(k, v)]
  | (k', v') :: rest =>
    if k' = k then (k, v) :: rest else (k', v') :: dictInsert k v rest

/-- Python `d.pop(k, None)`: removes the first slot with key `k`, if any. -/
def dictPop {α : Type} (k : String) : List (String × α) → List (String × α)
  | [] => []
  | (k', v') :: rest => if k' = k then rest else (k', v') :: dictPop k rest

/-- Configuration record for one server, as read by `start_server`:
`server.get("command")`, `server.get("args", [])`, `server.get("env", {})`,
plus the `enabled` and `tools` fields written by `load_config`. -/
structure ServerConfig where
  command : Option String
  args : List String
  env : List (String × String)
  enabled : Bool
  tools : List String
deriving DecidableEq, Repr

/-- The slice of a `self.processes[name]` entry that the claims observe:
the process handle (`alive` = `poll() is None`, `returncode`), the port,
and whether the two log-file handles (`stdout`, `stderr`) are still open.
The entry also stores `start_time`, `log_file`, `err_file` in Python;
those never influence control flow and are omitted. -/
structure ProcessInfo where
  alive : Bool
  returncode : Int
  port : Nat
  stdoutOpen : Bool
  stderrOpen : Bool
deriving DecidableEq, Repr

/-- The mutable state of `MCPClient`: `self.servers`, `self.active_servers`
(each value is the dict with `url`/`port`/`running`, of which only `port`
feeds later control flow — `url` is derived from it and `running` is the
constant `True`), `self.processes` and `self.ports`. -/
structure MCPState where
  servers : List (String × ServerConfig)
  activeServers : List (String × Nat)
  processes : List (String × ProcessInfo)
  ports : List (String × Nat)
deriving DecidableEq, Repr

/-- Environment oracle for one `start_server` call: which TCP ports are in
use, whether `subprocess.Popen` raises, whether the child has exited when
`poll()` runs after the 1-second grace sleep (and with what exit code),
and the text the child wrote to its stderr log. -/
structure StartEnv where
  portInUse : Nat → Bool
  spawnRaises : Bool
  exitsInGrace : Option Int
  stderrContent : String

/-- Environment oracle for one `stop_server` call: whether the terminate
call raises, whether `process.wait(timeout=5)` raises `TimeoutExpired`,
and whether the subsequent `process.kill()` raises. -/
structure StopEnv where
  terminateRaises : Bool
  waitTimesOut : Bool
  killRaises : Bool
deriving DecidableEq, Repr

/-- `for test_port in range(3000, 3100): if not self._port_in_use(test_port)`:
first free port in the scan range, if any. -/
def findFreePort (inUse : Nat → Bool) : Option Nat :=
  ((List.range 100).map (fun i => 3000 + i)).find? (fun p => !inUse p)

/-- Port selection of `start_server`: `self.ports.get(server_name, 3000 +
len(self.active_servers))`, falling back to a scan when that port is busy. -/
def resolvePort (st : MCPState) (name : String) (inUse : Nat → Bool) : Option Nat :=
  let port0 := (alookup name st.ports).getD (3000 + st.activeServers.length)
  if inUse port0 then findFreePort inUse else some port0

/-- `MCPClient.start_server` (mcp_integration.py lines 186-280).  Control
flow, in source order: unknown name → `False`; already in both
`active_servers` and `processes` → `True` without touching the state; no
resolvable port → `False`; missing `command` → `False`; `Popen` raising →
`False` (caught by the enclosing `try`); child exited when `poll()` runs
after `time.sleep(1)` → the `processes` entry (stored before the sleep)
remains with both log handles closed, name is not added to
`active_servers`, result `False`; otherwise the name is added to
`active_servers` with its port and the result is `True`. -/
def startServer (st : MCPState) (name : String) (e : StartEnv) : Bool × MCPState :=
  match alookup name st.servers with
  | none => (false, st)
  | some cfg =>
    if name ∈ keys st.activeServers ∧ name ∈ keys st.processes then
      (true, st)
    else
      match resolvePort st name e.portInUse with
      | none => (false, st)
      | some port =>
        match cfg.command with
        | none => (false, st)
        | some _ =>
          if e.spawnRaises then (false, st)
          else
            match e.exitsInGrace with
            | some code =>
              (false, { st with
                processes := dictInsert name
                  ⟨false, code, port, false, false⟩ st.processes })
            | none =>
              (true, { st with
                processes := dictInsert name
                  ⟨true, 0, port, true, true⟩ st.processes,
                activeServers := dictInsert name port st.activeServers })

/-- `MCPClient.stop_server` (lines 282-336).  Name missing from
`active_servers` or from `processes` → warning log and `False`, state
untouched.  Otherwise terminate; if the terminate call raises → `False`
(generic handler).  If `process.wait(timeout=5)` raises `TimeoutExpired`
→ `process.kill()` and `True` (or `False` if the kill raises) — note the
timeout path returns without closing the log handles and without popping
the entries.  On the graceful path the log handles are closed and the
name is popped from both `active_servers` and `processes`, result `True`.
(`process_info.get("process")` is always set at insertion; the `if not
process` guard is the `none` branch of the lookup, unreachable here.) -/
def stopServer (st : MCPState) (name : String) (e : StopEnv) : Bool × MCPState :=
  if name ∈ keys st.activeServers ∧ name ∈ keys st.processes then
    match alookup name st.processes with
    | none => (false, st)
    | some _ =>
      if e.terminateRaises then (false, st)
      else if e.waitTimesOut then
        if e.killRaises then (false, st) else (true, st)
      else
        (true, { st with
          activeServers := dictPop name st.activeServers,
          processes := dictPop name st.processes })
  else (false, st)

/-- One step of the `for server_name, process_info in self.processes.items()`
loop of `_monitor_servers`.  CPython iterates the live dict: once an entry
has been popped the dict size has changed, so the very next advance of the
iterator raises `RuntimeError: dictionary changed size during iteration`
(also on the final, exhausting advance).  The `mutated` flag records
whether a pop has happened; the returned Bool is whether the pass aborted
with that `RuntimeError`. -/
def monitorGo : List (String × ProcessInfo) → MCPState → Bool → MCPState × Bool
  | [], st, mutated => (st, mutated)
  | (name, pinfo) :: rest, st, mutated =>
    if mutated then (st, true)
    else if pinfo.alive then monitorGo rest st false
    else
      monitorGo rest
        { st with
          activeServers := dictPop name st.activeServers,
          processes := dictPop name st.processes } true

/-- One pass of the body of `MCPClient._monitor_servers` (lines 167-176):
for each tracked entry whose process has exited (`poll() is not None`),
log a warning with the exit code and pop the name from `active_servers`
and `processes`.  Returns the state after the pass together with whether
the pass raised `RuntimeError` (which it does whenever it pops, because
the loop mutates the dict it is iterating; the exception propagates and
terminates the monitor thread). -/
def monitorPass (st : MCPState) : MCPState × Bool :=
  monitorGo st.processes st false

/-- An already-deserialized JSON payload, kept abstract: the module never
looks inside the bodies it returns. -/
structure JsonVal where
  raw : String
deriving DecidableEq, Repr

/-- Outcome of the `requests.post` call inside `call_tool`: either the
transport raises (connection error, etc.), or a response arrives with an
HTTP status code and a body that `response.json()` deserializes to
`some` payload or fails on (`none`). -/
inductive RpcOutcome where
  | transportError (msg : String)
  | response (status : Nat) (body : Option JsonVal)
deriving DecidableEq, Repr

/-- The HTTP request `call_tool` issues: the URL built from the server's
port, the `method` field of the payload (the tool name), and the timeout
passed to `requests.post` — `none` when no `timeout=` argument is given,
in which case the library waits indefinitely. -/
structure HttpRequest where
  url : String
  method : String
  timeoutSecs : Option Nat
deriving DecidableEq, Repr

/-- What `call_tool` returns: either the deserialized response body
(`response.json()`, whatever the status code) or a Python dict of the
shape `{"error": msg}`. -/
inductive CallResult where
  | json (body : JsonVal)
  | errorDict (msg : String)
deriving DecidableEq, Repr

/-- Result of one `call_tool` invocation: the returned value, the state
it left behind, and the HTTP request it issued (`none` when it returned
before reaching the RPC). -/
structure CallToolOut where
  result : CallResult
  state : MCPState
  request : Option HttpRequest
deriving DecidableEq, Repr

/-- The tail of `MCPClient.call_tool` (lines 399-419), after the ensure-
running preamble: `started` is the result of that preamble (`True` with
the untouched state when the server was already active, otherwise the
result of `start_server`).  If the start failed, return
`{"error": "Failed to start MCP server <name>"}` and issue no RPC.  Then
read the port from the `active_servers` entry (the lookup cannot miss
after a successful start; `if not port` catches a falsy, i.e. zero,
port).  Issue a single `requests.post(url, json=payload)` — with no
`timeout=` argument — and return `response.json()` no matter the status
code; any exception (transport failure, JSON decode failure) is caught
and returned as `{"error": str(e)}`.  No retry, no restart. -/
def callToolStarted (started : Bool × MCPState) (server tool : String)
    (rpc : RpcOutcome) : CallToolOut :=
  if started.1 = false then
    ⟨.errorDict ("Failed to start MCP server " ++ server), started.2, none⟩
  else
    match alookup server started.2.activeServers with
    | none =>
      ⟨.errorDict ("MCP server " ++ server ++ " is not properly initialized"),
        started.2, none⟩
    | some port =>
      if port = 0 then
        ⟨.errorDict ("MCP server " ++ server ++ " is not properly initialized"),
          started.2, none⟩
      else
        match rpc with
        | .transportError msg =>
          ⟨.errorDict msg, started.2,
            some ⟨"http://localhost:" ++ toString port ++ "/tool", tool, none⟩⟩
        | .response _ none =>
          ⟨.errorDict "Expecting value: line 1 column 1 (char 0)",
            started.2,
            some ⟨"http://localhost:" ++ toString port ++ "/tool", tool, none⟩⟩
        | .response _ (some body) =>
          ⟨.json body, started.2,
            some ⟨"http://localhost:" ++ toString port ++ "/tool", tool, none⟩⟩

/-- `MCPClient.call_tool` (lines 394-419): the make-sure-it-is-running
preamble — if the server is not in `active_servers`, call `start_server`
first — followed by the RPC tail above. -/
def callTool (st : MCPState) (server tool : String) (e : StartEnv)
    (rpc : RpcOutcome) : CallToolOut :=
  callToolStarted
    (if server ∈ keys st.activeServers then (true, st)
     else startServer st server e) server tool rpc

/-- Parsed content of one candidate configuration file, as `load_config`
distinguishes it: a dict with an `mcpServers` key, a dict with a
`providers` key (each provider: name, `enabled` flag — defaulting to true
at JSON decoding — and `tools` list), or valid JSON with neither key. -/
inductive ConfigContent where
  | mcpServers (servers : List (String × ServerConfig))
  | providers (provs : List (String × Bool × List String))
  | otherJson
deriving DecidableEq, Repr

/-- Conversion of one enabled provider to a server config (lines 84-109):
`command` is always `npx`; `brave-search`, `github` and `filesystem` get
their dedicated package and environment, every other name the generic
`@modelcontextprotocol/server-<name>` template. -/
def providerToServer (environ : String → String) (name : String)
    (tools : List String) : ServerConfig :=
  if name = "brave-search" then
    ⟨some "npx", ["-y", "@modelcontextprotocol/server-brave-search"],
      [("BRAVE_API_KEY", environ "BRAVE_API_KEY")], true, tools⟩
  else if name = "github" then
    ⟨some "npx", ["-y", "@modelcontextprotocol/server-github"],
      [("GITHUB_PERSONAL_ACCESS_TOKEN", environ "GITHUB_TOKEN")], true, tools⟩
  else if name = "filesystem" then
    ⟨some "npx", ["-y", "@modelcontextprotocol/server-filesystem"],
      [], true, tools⟩
  else
    ⟨some "npx", ["-y", "@modelcontextprotocol/server-" ++ name], [], true, tools⟩

/-- The `providers` branch of `load_config`: keep the enabled providers,
converting each. -/
def convertProviders (environ : String → String)
    (provs : List (String × Bool × List String)) : List (String × ServerConfig) :=
  provs.filterMap (fun p =>
    if p.2.1 then some (p.1, providerToServer environ p.1 p.2.2) else none)

/-- The built-in default configuration installed when no candidate file
yields a configuration (lines 118-144): `brave-search`, `github` and
`sequential-thinking`. -/
def defaultServers (environ : String → String) : List (String × ServerConfig) :=
  [("brave-search",
    ⟨some "npx", ["-y", "@modelcontextprotocol/server-brave-search"],
      [("BRAVE_API_KEY", environ "BRAVE_API_KEY")], true,
      ["web_search", "local_search", "image_search"]⟩),
   ("github",
    ⟨some "npx", ["-y", "@modelcontextprotocol/server-github"],
      [("GITHUB_PERSONAL_ACCESS_TOKEN", environ "GITHUB_TOKEN")], true,
      ["search_code", "get_file_contents", "create_pull_request"]⟩),
   ("sequential-thinking",
    ⟨some "npx", ["-y", "@modelcontextprotocol/server-sequential-thinking"],
      [], true, ["solve"]⟩)]

/-- `MCPClient.load_config` (lines 60-147) over the ordered candidate
list.  Each candidate is `none` when the file is missing, unreadable or
malformed (the per-path `except` logs and moves on), otherwise its parsed
content.  A candidate carrying `mcpServers` or `providers` stops the
scan; parsed JSON with neither key leaves `config_loaded` false and the
scan continues.  When nothing loaded, the built-in defaults are used.
The function is total: nothing escapes the surrounding `try`. -/
def loadConfig (environ : String → String) :
    List (Option ConfigContent) → List (String × ServerConfig)
  | [] => defaultServers environ
  | none :: rest => loadConfig environ rest
  | some (.mcpServers s) :: _ => s
  | some (.providers ps) :: _ => convertProviders environ ps
  | some .otherJson :: rest => loadConfig environ rest

/-- `MCPClient._assign_ports` (lines 149-154): the i-th configured server
gets port `3000 + i`. -/
def assignPorts (servers : List (String × ServerConfig)) : List (String × Nat) :=
  servers.enum.map (fun p => (p.2.1, 3000 + p.1))

/-- The slice of `get_server_status` (lines 359-385) the claims observe:
`exists` and the final `running` flag.  `running` starts as membership in
both `active_servers` and `processes` and is cleared again when the
stored process has exited (`poll() is not None`). -/
structure StatusReport where
  found : Bool
  running : Bool
deriving DecidableEq, Repr

/-- `MCPClient.get_server_status`, restricted to the `exists`/`running`
fields. -/
def getServerStatus (st : MCPState) (name : String) : StatusReport :=
  if name ∈ keys st.servers then
    if name ∈ keys st.activeServers ∧ name ∈ keys st.processes then
      match alookup name st.processes with
      | some pinfo => if pinfo.alive then ⟨true, true⟩ else ⟨true, false⟩
      | none => ⟨true, true⟩
    else ⟨true, false⟩
  else ⟨false, false⟩

/-- One state transition of the subsystem: a `start_server`, `stop_server`
or monitor-pass call with arbitrary environment.  (`restart_server`,
`start_all_servers` and `stop_all_servers` are compositions of these.) -/
inductive Step : MCPState → MCPState → Prop where
  | start (st : MCPState) (n : String) (e : StartEnv) :
      Step st (startServer st n e).2
  | stop (st : MCPState) (n : String) (e : StopEnv) :
      Step st (stopServer st n e).2
  | monitor (st : MCPState) : Step st (monitorPass st).1

/-- States reachable from a freshly constructed `MCPClient`: `__init__`
loads the configuration from the candidate files, assigns ports, and
leaves `active_servers` and `processes` empty; afterwards any sequence of
steps may run. -/
inductive Reachable : MCPState → Prop where
  | init (environ : String → String) (candidates : List (Option ConfigContent)) :
      Reachable
        { servers := loadConfig environ candidates
          activeServers := []
          processes := []
          ports := assignPorts (loadConfig environ candidates) }
  | step {st st' : MCPState} : Reachable st → Step st st' → Reachable st'

/-- The registry invariant maintained by every operation: every active
name has a process entry and a configuration entry, and neither dict has
a duplicated key. -/
def Inv (st : MCPState) : Prop :=
  (∀ n, n ∈ keys st.activeServers → n ∈ keys st.processes) ∧
  (∀ n, n ∈ keys st.activeServers → n ∈ keys st.servers) ∧
  (keys st.activeServers).Nodup ∧ (keys st.processes).Nodup

/-! Concrete fixtures: a process environment, two server configurations,
and a few states used to exercise the definitions on closed inputs. -/

/-- An `os.environ` with every variable unset/empty. -/
def env0 : String → String := fun _ => ""

/-- Configuration of a server named `a`. -/
def cfgA : ServerConfig :=
  ⟨some "npx", ["-y", "@modelcontextprotocol/server-a"], [], true, []⟩

/-- Configuration of a server named `b`. -/
def cfgB : ServerConfig :=
  ⟨some "npx", ["-y", "@modelcontextprotocol/server-b"], [], true, []⟩

/-- A single candidate configuration file in the native `mcpServers`
format, declaring the server `a`. -/
def candA : List (Option ConfigContent) := [some (.mcpServers [("a", cfgA)])]

/-- The state of a freshly constructed client whose configuration lists
the single server `a` (port 3000 assigned, nothing running). -/
def stInit : MCPState :=
  { servers := loadConfig env0 candA
    activeServers := []
    processes := []
    ports := assignPorts (loadConfig env0 candA) }

/-- A benign launch environment: no port is in use, `Popen` succeeds and
the child is still alive after the grace sleep. -/
def envOk : StartEnv :=
  { portInUse := fun _ => false, spawnRaises := false,
    exitsInGrace := none, stderrContent := "" }

/-- A failing launch environment: the child exits with code 1 inside the
grace window after writing `stderrText` to its stderr log. -/
def envCrash (stderrText : String) : StartEnv :=
  { portInUse := fun _ => false, spawnRaises := false,
    exitsInGrace := some 1, stderrContent := stderrText }

/-- The state after successfully starting `a` from `stInit`. -/
def stA : MCPState := (startServer stInit "a" envOk).2

/-- A stop environment in which graceful termination succeeds within the
5-second wait. -/
def gracefulStop : StopEnv := ⟨false, false, false⟩

/-- A stop environment in which `process.wait(timeout=5)` raises
`TimeoutExpired` and the subsequent `kill()` succeeds. -/
def timeoutStop : StopEnv := ⟨false, true, false⟩

/-- A process entry whose process has exited with code 1. -/
def deadA : ProcessInfo := ⟨false, 1, 3000, true, true⟩

/-- A process entry whose process has exited with code 2. -/
def deadB : ProcessInfo := ⟨false, 2, 3001, true, true⟩

/-- A state with two tracked servers `a` and `b` whose processes have
both been killed externally — the input on which a monitor pass should
clean up both entries. -/
def stBoth : MCPState :=
  { servers := [("a", cfgA), ("b", cfgB)]
    activeServers := [("a", 3000), ("b", 3001)]
    processes := [("a", deadA), ("b", deadB)]
    ports := [("a", 3000), ("b", 3001)] }

/-! Dictionary lemmas. -/

theorem keys_nil {α : Type} : keys ([] : List (String × α)) = [] := rfl

theorem keys_cons {α : Type} (k : String) (v : α) (l : List (String × α)) :
    keys ((k, v) :: l) = k :: keys l := rfl

theorem mem_keys_iff {α : Type} (a : String) (l : List (String × α)) :
    a ∈ keys l ↔ (alookup a l).isSome := by
  induction l with
  | nil => simp [keys_nil, alookup]
  | cons hd tl ih =>
    obtain ⟨k, v⟩ := hd
    by_cases h : k = a
    · subst h; simp [keys_cons, alookup]
    · simp only [keys_cons, List.mem_cons, alookup, h, if_false, ih]
      constructor
      · rintro (rfl | hm)
        · exact absurd rfl h
        · exact hm
      · exact Or.inr

theorem alookup_dictInsert_self {α : Type} (k : String) (v : α)
    (l : List (String × α)) : alookup k (dictInsert k v l) = some v := by
  induction l with
  | nil => simp [dictInsert, alookup]
  | cons hd tl ih =>
    obtain ⟨k', v'⟩ := hd
    by_cases h : k' = k
    · simp [dictInsert, alookup, h]
    · simp [dictInsert, alookup, h, ih]

theorem mem_keys_dictInsert {α : Type} (a k : String) (v : α)
    (l : List (String × α)) :
    a ∈ keys (dictInsert k v l) ↔ a = k ∨ a ∈ keys l := by
  induction l with
  | nil => simp [dictInsert, keys_cons, keys_nil]
  | cons hd tl ih =>
    obtain ⟨k', v'⟩ := hd
    by_cases h : k' = k
    · subst h; simp [dictInsert, keys_cons]
    · simp only [dictInsert, h, if_false, keys_cons, List.mem_cons, ih]
      tauto

theorem nodup_keys_dictInsert {α : Type} (k : String) (v : α)
    (l : List (String × α)) (h : (keys l).Nodup) :
    (keys (dictInsert k v l)).Nodup := by
  induction l with
  | nil => simp [dictInsert, keys_cons, keys_nil]
  | cons hd tl ih =>
    obtain ⟨k', v'⟩ := hd
    simp only [keys_cons, List.nodup_cons] at h
    by_cases hk : k' = k
    · subst hk
      simpa [dictInsert, keys_cons] using h
    · simp only [dictInsert, hk, if_false, keys_cons, List.nodup_cons]
      refine ⟨?_, ih h.2⟩
      intro hmem
      rcases (mem_keys_dictInsert k' k v tl).1 hmem with h1 | h1
      · exact hk h1
      · exact h.1 h1

theorem mem_keys_of_mem_dictPop {α : Type} (a k : String)
    (l : List (String × α)) (h : a ∈ keys (dictPop k l)) : a ∈ keys l := by
  induction l with
  | nil => simp [dictPop, keys_nil] at h
  | cons hd tl ih =>
    obtain ⟨k', v'⟩ := hd
    by_cases hk : k' = k
    · simp only [dictPop, hk, if_true] at h
      simp only [keys_cons, List.mem_cons]
      exact Or.inr h
    · simp only [dictPop, hk, if_false, keys_cons, List.mem_cons] at h ⊢
      rcases h with h | h
      · exact Or.inl h
      · exact Or.inr (ih h)

theorem mem_keys_dictPop_of_ne {α : Type} (a k : String)
    (l : List (String × α)) (ha : a ∈ keys l) (hne : a ≠ k) :
    a ∈ keys (dictPop k l) := by
  induction l with
  | nil => simp [keys_nil] at ha
  | cons hd tl ih =>
    obtain ⟨k', v'⟩ := hd
    simp only [keys_cons, List.mem_cons] at ha
    by_cases hk : k' = k
    · subst hk
      rcases ha with ha | ha
      · exact absurd ha hne
      · simpa [dictPop, keys_cons] using ha
    · simp only [dictPop, hk, if_false, keys_cons, List.mem_cons]
      rcases ha with ha | ha
      · exact Or.inl ha
      · exact Or.inr (ih ha)

theorem not_mem_keys_dictPop_self {α : Type} (k : String)
    (l : List (String × α)) (h : (keys l).Nodup) :
    k ∉ keys (dictPop k l) := by
  induction l with
  | nil => simp [dictPop, keys_nil]
  | cons hd tl ih =>
    obtain ⟨k', v'⟩ := hd
    simp only [keys_cons, List.nodup_cons] at h
    by_cases hk : k' = k
    · subst hk
      simpa [dictPop, keys_cons] using h.1
    · simp only [dictPop, hk, if_false, keys_cons, List.mem_cons]
      intro hc
      rcases hc with hc | hc
      · exact hk hc.symm
      · exact ih h.2 hc

theorem nodup_keys_dictPop {α : Type} (k : String)
    (l : List (String × α)) (h : (keys l).Nodup) :
    (keys (dictPop k l)).Nodup := by
  induction l with
  | nil => simp [dictPop, keys_nil]
  | cons hd tl ih =>
    obtain ⟨k', v'⟩ := hd
    simp only [keys_cons, List.nodup_cons] at h
    by_cases hk : k' = k
    · simpa [dictPop, hk, keys_cons] using h.2
    · simp only [dictPop, hk, if_false, keys_cons, List.nodup_cons]
      exact ⟨fun hc => h.1 (mem_keys_of_mem_dictPop k' k tl hc), ih h.2⟩

/-! Invariant preservation. -/

/-- The state after `start_server` is the old state, the old state with
one `processes` slot written (failed launch), or the old state with
matching `processes` and `active_servers` slots written (successful
launch, which requires a configuration entry for the name). -/
theorem startServer_snd_cases (st : MCPState) (n : String) (e : StartEnv) :
    (startServer st n e).2 = st ∨
    (∃ pinfo, (startServer st n e).2 =
      { st with processes := dictInsert n pinfo st.processes }) ∨
    (∃ pinfo port, n ∈ keys st.servers ∧
      (startServer st n e).2 =
        { st with processes := dictInsert n pinfo st.processes,
                  activeServers := dictInsert n port st.activeServers }) := by
  have hserv : alookup n st.servers = none → (startServer st n e).2 = st := by
    intro h; simp [startServer, h]
  cases h : alookup n st.servers with
  | none => exact Or.inl (hserv h)
  | some cfg =>
    have hmem : n ∈ keys st.servers := by
      rw [mem_keys_iff, h]; rfl
    by_cases hrun : n ∈ keys st.activeServers ∧ n ∈ keys st.processes
    · left; simp [startServer, h, hrun]
    · cases hp : resolvePort st n e.portInUse with
      | none => left; simp [startServer, h, hrun, hp]
      | some port =>
        cases hc : cfg.command with
        | none => left; simp [startServer, h, hrun, hp, hc]
        | some cmd =>
          by_cases hsr : e.spawnRaises
          · left; simp [startServer, h, hrun, hp, hc, hsr]
          · cases hg : e.exitsInGrace with
            | some code =>
              right; left
              exact ⟨⟨false, code, port, false, false⟩, by
                simp [startServer, h, hrun, hp, hc, hsr, hg]⟩
            | none =>
              right; right
              exact ⟨⟨true, 0, port, true, true⟩, port, hmem, by
                simp [startServer, h, hrun, hp, hc, hsr, hg]⟩

/-- The state after `stop_server` is the old state or the old state with
the name popped from both `active_servers` and `processes`. -/
theorem stopServer_snd_cases (st : MCPState) (n : String) (e : StopEnv) :
    (stopServer st n e).2 = st ∨
    (stopServer st n e).2 =
      { st with activeServers := dictPop n st.activeServers,
                processes := dictPop n st.processes } := by
  by_cases hrun : n ∈ keys st.activeServers ∧ n ∈ keys st.processes
  · cases h : alookup n st.processes with
    | none => left; simp [stopServer, hrun, h]
    | some pinfo =>
      by_cases ht : e.terminateRaises
      · left; simp [stopServer, hrun, h, ht]
      · by_cases hw : e.waitTimesOut
        · by_cases hk : e.killRaises
          · left; simp [stopServer, hrun, h, ht, hw, hk]
          · left; simp [stopServer, hrun, h, ht, hw, hk]
        · right; simp [stopServer, hrun, h, ht, hw]
  · left; simp [stopServer, hrun]

theorem inv_popBoth (st : MCPState) (n : String) (h : Inv st) :
    Inv { st with activeServers := dictPop n st.activeServers,
                  processes := dictPop n st.processes } := by
  obtain ⟨hsub, hserv, hna, hnp⟩ := h
  refine ⟨?_, ?_, nodup_keys_dictPop n _ hna, nodup_keys_dictPop n _ hnp⟩
  · intro m hm
    by_cases hmn : m = n
    · subst hmn
      exact absurd hm (not_mem_keys_dictPop_self m _ hna)
    · exact mem_keys_dictPop_of_ne m n _
        (hsub m (mem_keys_of_mem_dictPop m n _ hm)) hmn
  · intro m hm
    exact hserv m (mem_keys_of_mem_dictPop m n _ hm)

theorem inv_startServer (st : MCPState) (n : String) (e : StartEnv)
    (h : Inv st) : Inv (startServer st n e).2 := by
  obtain ⟨hsub, hserv, hna, hnp⟩ := h
  rcases startServer_snd_cases st n e with hc | ⟨pinfo, hc⟩ | ⟨pinfo, port, hmem, hc⟩
  · rw [hc]; exact ⟨hsub, hserv, hna, hnp⟩
  · rw [hc]
    refine ⟨?_, hserv, hna, nodup_keys_dictInsert n pinfo _ hnp⟩
    intro m hm
    exact (mem_keys_dictInsert m n pinfo _).2 (Or.inr (hsub m hm))
  · rw [hc]
    refine ⟨?_, ?_, nodup_keys_dictInsert n port _ hna,
      nodup_keys_dictInsert n pinfo _ hnp⟩
    · intro m hm
      rcases (mem_keys_dictInsert m n port _).1 hm with hmn | hmn
      · exact (mem_keys_dictInsert m n pinfo _).2 (Or.inl hmn)
      · exact (mem_keys_dictInsert m n pinfo _).2 (Or.inr (hsub m hmn))
    · intro m hm
      rcases (mem_keys_dictInsert m n port _).1 hm with hmn | hmn
      · subst hmn; exact hmem
      · exact hserv m hmn

theorem inv_stopServer (st : MCPState) (n : String) (e : StopEnv)
    (h : Inv st) : Inv (stopServer st n e).2 := by
  rcases stopServer_snd_cases st n e with hc | hc
  · rw [hc]; exact h
  · rw [hc]; exact inv_popBoth st n h

theorem inv_monitorGo (l : List (String × ProcessInfo)) :
    ∀ (st : MCPState) (m : Bool), Inv st → Inv (monitorGo l st m).1 := by
  induction l with
  | nil => intro st m h; exact h
  | cons hd tl ih =>
    obtain ⟨n, pinfo⟩ := hd
    intro st m h
    by_cases hm : m
    · subst hm; exact h
    · simp only [Bool.not_eq_true] at hm
      subst hm
      by_cases ha : pinfo.alive
      · simpa [monitorGo, ha] using ih st false h
      · simp only [monitorGo, ha, if_neg, Bool.false_eq_true, if_false]
        exact ih _ true (inv_popBoth st n h)

theorem inv_monitorPass (st : MCPState) (h : Inv st) : Inv (monitorPass st).1 :=
  inv_monitorGo st.processes st false h

/-- Every reachable state satisfies the registry invariant. -/
theorem reachable_inv (st : MCPState) (h : Reachable st) : Inv st := by
  induction h with
  | init environ candidates =>
    exact ⟨fun n hn => by simp [keys] at hn, fun n hn => by simp [keys] at hn,
      by simp [keys], by simp [keys]⟩
  | step _ hstep ih =>
    cases hstep with
    | start n e => exact inv_startServer _ n e ih
    | stop n e => exact inv_stopServer _ n e ih
    | monitor => exact inv_monitorPass _ ih

/-- Under the invariant, `start_server` on an already-active name hits the
already-running guard: it returns `True` and leaves the state untouched
(no second spawn). -/
theorem startServer_already_active (st : MCPState) (n : String) (e : StartEnv)
    (hinv : Inv st) (hn : n ∈ keys st.activeServers) :
    startServer st n e = (true, st) := by
  obtain ⟨hsub, hserv, _, _⟩ := hinv
  have hp := hsub n hn
  have hs := hserv n hn
  rw [mem_keys_iff] at hs
  cases h : alookup n st.servers with
  | none => rw [h] at hs; simp at hs
  | some cfg => simp [startServer, h, hn, hp]

theorem alookup_mem {α : Type} (k : String) (v : α) (l : List (String × α))
    (h : alookup k l = some v) : (k, v) ∈ l := by
  induction l with
  | nil => simp [alookup] at h
  | cons hd tl ih =>
    obtain ⟨k', v'⟩ := hd
    by_cases hk : k' = k
    · subst hk
      simp [alookup] at h
      subst h
      exact List.mem_cons_self _ _
    · simp only [alookup, hk, if_false] at h
      exact List.mem_cons_of_mem _ (ih h)

theorem exists_alookup_of_mem_keys {α : Type} (k : String)
    (l : List (String × α)) (h : k ∈ keys l) : ∃ v, alookup k l = some v := by
  rw [mem_keys_iff] at h
  cases hl : alookup k l with
  | none => rw [hl] at h; simp at h
  | some v => exact ⟨v, rfl⟩

/-- Every port `resolvePort` can settle on is nonzero, as long as every
pre-assigned port is nonzero: the default is `3000 + len`, and the scan
only returns ports in `[3000, 3100)`. -/
theorem resolvePort_ne_zero (st : MCPState) (n : String) (inUse : Nat → Bool)
    (port : Nat) (hports : ∀ p ∈ st.ports, p.2 ≠ 0)
    (h : resolvePort st n inUse = some port) : port ≠ 0 := by
  unfold resolvePort at h
  by_cases hu : inUse ((alookup n st.ports).getD (3000 + st.activeServers.length))
  · rw [if_pos hu] at h
    unfold findFreePort at h
    have hmem := List.mem_of_find?_eq_some h
    simp only [List.mem_map, List.mem_range] at hmem
    obtain ⟨i, _, hi⟩ := hmem
    omega
  · rw [if_neg hu] at h
    cases halk : alookup n st.ports with
    | none =>
      rw [halk] at h
      simp only [Option.getD_none, Option.some.injEq] at h
      omega
    | some p =>
      rw [halk] at h
      simp only [Option.getD_some, Option.some.injEq] at h
      rw [← h]
      exact hports (n, p) (alookup_mem n p st.ports halk)

/-- A successful `start_server` on a name that was not active went down
the spawn path: there is a configuration entry and a resolved port, and
the new `active_servers` is the old one with that port written for the
name. -/
theorem startServer_true_of_not_active (st : MCPState) (n : String)
    (e : StartEnv) (hna : n ∉ keys st.activeServers)
    (h : (startServer st n e).1 = true) :
    ∃ cfg port, alookup n st.servers = some cfg ∧
      resolvePort st n e.portInUse = some port ∧
      (startServer st n e).2.activeServers = dictInsert n port st.activeServers := by
  have hguard : ¬(n ∈ keys st.activeServers ∧ n ∈ keys st.processes) := by tauto
  cases hcfg : alookup n st.servers with
  | none => simp [startServer, hcfg] at h
  | some cfg =>
    cases hp : resolvePort st n e.portInUse with
    | none => simp [startServer, hcfg, hguard, hp] at h
    | some port =>
      cases hc : cfg.command with
      | none => simp [startServer, hcfg, hguard, hp, hc] at h
      | some cmd =>
        by_cases hsr : e.spawnRaises
        · simp [startServer, hcfg, hguard, hp, hc, hsr] at h
        · cases hg : e.exitsInGrace with
          | some code => simp [startServer, hcfg, hguard, hp, hc, hsr, hg] at h
          | none =>
            refine ⟨cfg, port, rfl, rfl, ?_⟩
            simp [startServer, hcfg, hguard, hp, hc, hsr, hg]

/-- The exact outcome of `start_server` when the child exits inside the
grace window: result `False`, and the only state change is the
`processes` slot for the name, holding the dead handle and both log
handles closed. -/
theorem startServer_grace_exit (st : MCPState) (n : String) (e : StartEnv)
    (cfg : ServerConfig) (cmd : String) (port : Nat) (code : Int)
    (hcfg : alookup n st.servers = some cfg) (hcmd : cfg.command = some cmd)
    (hna : n ∉ keys st.activeServers)
    (hport : resolvePort st n e.portInUse = some port)
    (hsr : e.spawnRaises = false) (hg : e.exitsInGrace = some code) :
    startServer st n e =
      (false,
        { st with
            processes :=
              dictInsert n ⟨false, code, port, false, false⟩ st.processes }) := by
  have hguard : ¬(n ∈ keys st.activeServers ∧ n ∈ keys st.processes) := by tauto
  simp [startServer, hcfg, hguard, hport, hcmd, hsr, hg]

theorem dictInsert_append_of_not_mem {α : Type} (k : String) (v : α)
    (l : List (String × α)) (h : k ∉ keys l) :
    dictInsert k v l = l ++ [(k, v)] := by
  induction l with
  | nil => rfl
  | cons hd tl ih =>
    obtain ⟨k', v'⟩ := hd
    simp only [keys_cons, List.mem_cons] at h
    push_neg at h
    have : k' ≠ k := fun hc => h.1 hc.symm
    simp [dictInsert, this, ih h.2]

theorem dictPop_append_self {α : Type} (k : String) (v : α)
    (l : List (String × α)) (h : k ∉ keys l) :
    dictPop k (l ++ [(k, v)]) = l := by
  induction l with
  | nil => simp [dictPop]
  | cons hd tl ih =>
    obtain ⟨k', v'⟩ := hd
    simp only [keys_cons, List.mem_cons] at h
    push_neg at h
    have : k' ≠ k := fun hc => h.1 hc.symm
    simp [dictPop, this, ih h.2]

/-- A monitor pass over a process table whose live entries all precede a
single dead one walks the live prefix, pops the dead entry from both
dicts, and then aborts with `RuntimeError` on the next iterator advance. -/
theorem monitorGo_alive_append_dead (l : List (String × ProcessInfo))
    (n : String) (pdead : ProcessInfo) (hd : pdead.alive = false)
    (hl : ∀ p ∈ l, p.2.alive = true) :
    ∀ st : MCPState,
      monitorGo (l ++ [(n, pdead)]) st false =
        ({ st with activeServers := dictPop n st.activeServers,
                   processes := dictPop n st.processes }, true) := by
  induction l with
  | nil =>
    intro st
    simp [monitorGo, hd]
  | cons hd' tl ih =>
    intro st
    obtain ⟨k, q⟩ := hd'
    have hq : q.alive = true := hl (k, q) (List.mem_cons_self _ _)
    have htl : ∀ p ∈ tl, p.2.alive = true :=
      fun p hp => hl p (List.mem_cons_of_mem _ hp)
    simp only [List.cons_append, monitorGo, if_neg, hq, if_true]
    exact ih htl st

/-- Every request the RPC tail of `call_tool` issues has an empty
timeout field, whatever preamble result it is applied to. -/
theorem callToolStarted_request_no_timeout (started : Bool × MCPState)
    (server tool : String) (rpc : RpcOutcome) (req : HttpRequest)
    (h : (callToolStarted started server tool rpc).request = some req) :
    req.timeoutSecs = none := by
  unfold callToolStarted at h
  split at h
  · simp at h
  · split at h
    · simp at h
    · split at h
      · simp at h
      · split at h <;> (simp only [Option.some.injEq] at h; rw [← h])

/-! Claim theorems. -/

/-- C1 counterexample: `stop_server` on the configured but not active
server `a` returns `False`, and after a successful graceful stop of a
running `a` the immediately following second `stop_server("a")` also
returns `False` — not the success the claim states. -/
theorem stop_not_active_returns_false_cex :
    (stopServer stInit "a" gracefulStop).1 = false ∧
    (stopServer (stopServer stA "a" gracefulStop).2 "a" gracefulStop).1 =
      false := by
  decide

/-- C1 (corrected): `stop_server` on a name missing from
`active_servers` (or from `processes`) is a state-preserving no-op that
returns `False` — not success — after logging a warning; consequently a
graceful `stop(n)` followed by a second `stop(n)` has the second call
return `False` with the state unchanged.  The second call is still
error-free (nothing is raised), but its boolean result is failure. -/
theorem stop_not_active_returns_false (st : MCPState) (n : String)
    (e₁ e₂ : StopEnv) :
    (n ∉ keys st.activeServers ∨ n ∉ keys st.processes →
      stopServer st n e₂ = (false, st)) ∧
    (n ∈ keys st.activeServers → n ∈ keys st.processes →
      (keys st.activeServers).Nodup →
      e₁.terminateRaises = false → e₁.waitTimesOut = false →
      (stopServer st n e₁).1 = true ∧
      stopServer (stopServer st n e₁).2 n e₂ =
        (false, (stopServer st n e₁).2)) := by
  constructor
  · intro h
    have hg : ¬(n ∈ keys st.activeServers ∧ n ∈ keys st.processes) := by tauto
    simp [stopServer, hg]
  · intro ha hp hnd ht hw
    obtain ⟨pinfo, halk⟩ := exists_alookup_of_mem_keys n st.processes hp
    have hfirst : stopServer st n e₁ =
        (true, { st with activeServers := dictPop n st.activeServers,
                         processes := dictPop n st.processes }) := by
      simp [stopServer, ha, hp, halk, ht, hw]
    rw [hfirst]
    refine ⟨rfl, ?_⟩
    have hna : n ∉ keys (dictPop n st.activeServers) :=
      not_mem_keys_dictPop_self n _ hnd
    have hg : ¬(n ∈ keys (dictPop n st.activeServers) ∧
        n ∈ keys (dictPop n st.processes)) := by tauto
    simp [stopServer, hg]

/-- C1 witness: the corrected statement evaluated on the concrete states
`stInit` (server `a` configured, nothing running) and `stA` (server `a`
running). -/
theorem stop_not_active_returns_false_witness :
    stopServer stInit "a" gracefulStop = (false, stInit) ∧
    ((stopServer stA "a" gracefulStop).1 = true ∧
      stopServer (stopServer stA "a" gracefulStop).2 "a" gracefulStop =
        (false, (stopServer stA "a" gracefulStop).2)) :=
  ⟨(stop_not_active_returns_false stInit "a" gracefulStop gracefulStop).1
      (Or.inl (by decide)),
   (stop_not_active_returns_false stA "a" gracefulStop gracefulStop).2
      (by decide) (by decide) (by decide) rfl rfl⟩

/-- C2 counterexample: a launch whose child dies in the grace window
returns the bare boolean `False`: the result of `start_server` is
bit-for-bit identical whether the captured stderr tail was a long `npm`
error or the empty string, so the returned value carries no error detail
and in particular does not contain the captured stderr, contradicting
the claimed `LaunchFailure` error with a stderr detail. -/
theorem start_failure_result_independent_of_stderr_cex :
    startServer stInit "a" (envCrash "npm ERR! Cannot find module") =
      startServer stInit "a" (envCrash "") ∧
    (startServer stInit "a" (envCrash "npm ERR! Cannot find module")).1 =
      false := by
  decide

/-- C2 (corrected): when the launched child exits within the 1-second
grace window, `start_server` returns plain `False` (no error value, no
stderr detail — the stderr tail is only in the log file), it does close
both log handles, and the name is absent from `active_servers`
afterwards (the dead entry stays in `processes`, see C10). -/
theorem start_grace_failure_behavior (st : MCPState) (n : String)
    (e : StartEnv) (cfg : ServerConfig) (cmd : String) (port : Nat)
    (code : Int) (hcfg : alookup n st.servers = some cfg)
    (hcmd : cfg.command = some cmd) (hna : n ∉ keys st.activeServers)
    (hport : resolvePort st n e.portInUse = some port)
    (hsr : e.spawnRaises = false) (hg : e.exitsInGrace = some code) :
    (startServer st n e).1 = false ∧
    n ∉ keys (startServer st n e).2.activeServers ∧
    alookup n (startServer st n e).2.processes =
      some ⟨false, code, port, false, false⟩ := by
  have h1 := startServer_grace_exit st n e cfg cmd port code hcfg hcmd hna
    hport hsr hg
  rw [h1]
  refine ⟨rfl, ?_, ?_⟩
  · simpa using hna
  · simpa using alookup_dictInsert_self n
      (⟨false, code, port, false, false⟩ : ProcessInfo) st.processes

/-- C2 witness: the corrected statement evaluated on a concrete crashing
launch of `a` from the fresh state. -/
theorem start_grace_failure_behavior_witness :
    (startServer stInit "a" (envCrash "npm ERR! Cannot find module")).1 =
      false ∧
    "a" ∉ keys
      (startServer stInit "a"
        (envCrash "npm ERR! Cannot find module")).2.activeServers ∧
    alookup "a"
      (startServer stInit "a"
        (envCrash "npm ERR! Cannot find module")).2.processes =
      some ⟨false, 1, 3000, false, false⟩ :=
  start_grace_failure_behavior stInit "a"
    (envCrash "npm ERR! Cannot find module") cfgA "npx" 3000 1
    (by decide) rfl (by decide) (by decide) rfl rfl

/-- C3 (confirmed): `call_tool` on a server that is not active first
calls `start_server`; if the start fails it returns the structured
`Failed to start MCP server <name>` error dict and issues no RPC at all;
if the start succeeds, an HTTP POST to the port now recorded for the
server in `active_servers` is attempted. -/
theorem call_tool_autostarts (st : MCPState) (n tool : String)
    (e : StartEnv) (rpc : RpcOutcome) (hna : n ∉ keys st.activeServers) :
    ((startServer st n e).1 = false →
      callTool st n tool e rpc =
        ⟨.errorDict ("Failed to start MCP server " ++ n),
          (startServer st n e).2, none⟩) ∧
    ((startServer st n e).1 = true → (∀ p ∈ st.ports, p.2 ≠ 0) →
      ∃ port, alookup n (startServer st n e).2.activeServers = some port ∧
        (callTool st n tool e rpc).request =
          some ⟨"http://localhost:" ++ toString port ++ "/tool", tool,
            none⟩) := by
  constructor
  · intro hf
    simp [callTool, callToolStarted, hna, hf]
  · intro ht hports
    obtain ⟨cfg, port, hcfg, hport, hact⟩ :=
      startServer_true_of_not_active st n e hna ht
    have hp0 : port ≠ 0 := resolvePort_ne_zero st n e.portInUse port hports hport
    have halk : alookup n (startServer st n e).2.activeServers = some port := by
      rw [hact]
      exact alookup_dictInsert_self n port st.activeServers
    refine ⟨port, halk, ?_⟩
    cases rpc with
    | transportError msg => simp [callTool, callToolStarted, hna, ht, halk, hp0]
    | response status body =>
      cases body with
      | none => simp [callTool, callToolStarted, hna, ht, halk, hp0]
      | some b => simp [callTool, callToolStarted, hna, ht, halk, hp0]

/-- C3 witness: the failing side on the unconfigured name `zz` (start
fails, error dict returned, no request issued) and the succeeding side on
`a` (request issued to the assigned port 3000). -/
theorem call_tool_autostarts_witness :
    callTool stInit "zz" "t" envOk (.response 200 (some ⟨"ok"⟩)) =
      ⟨.errorDict ("Failed to start MCP server " ++ "zz"),
        (startServer stInit "zz" envOk).2, none⟩ ∧
    ∃ port,
      alookup "a" (startServer stInit "a" envOk).2.activeServers =
        some port ∧
      (callTool stInit "a" "t" envOk (.response 200 (some ⟨"ok"⟩))).request =
        some ⟨"http://localhost:" ++ toString port ++ "/tool", "t", none⟩ :=
  ⟨(call_tool_autostarts stInit "zz" "t" envOk
      (.response 200 (some ⟨"ok"⟩)) (by decide)).1 (by decide),
   (call_tool_autostarts stInit "a" "t" envOk
      (.response 200 (some ⟨"ok"⟩)) (by decide)).2 (by decide) (by decide)⟩

/-- C4 counterexample: stopping the running `a` when graceful termination
times out (and the kill succeeds) returns `True` but leaves `a` in
`active_servers` and leaves its `processes` entry — including both open
log handles — in place, contradicting the claimed close-and-remove on
the escalation path. -/
theorem stop_timeout_entry_remains_cex :
    (stopServer stA "a" timeoutStop).1 = true ∧
    "a" ∈ keys (stopServer stA "a" timeoutStop).2.activeServers ∧
    alookup "a" (stopServer stA "a" timeoutStop).2.processes =
      some ⟨true, 0, 3000, true, true⟩ := by
  decide

/-- C4 (corrected): when `process.wait(timeout=5)` raises
`TimeoutExpired`, `stop_server` escalates to `process.kill()` and — if
the kill does not raise — returns `True` immediately from the exception
handler: the log handles are not closed, and the entry is removed from
neither `active_servers` nor `processes`; the state is exactly the input
state.  Cleanup of the killed entry is left to a later monitor pass. -/
theorem stop_timeout_escalation_no_cleanup (st : MCPState) (n : String)
    (e : StopEnv) (ha : n ∈ keys st.activeServers)
    (hp : n ∈ keys st.processes) (ht : e.terminateRaises = false)
    (hw : e.waitTimesOut = true) (hk : e.killRaises = false) :
    stopServer st n e = (true, st) := by
  obtain ⟨pinfo, halk⟩ := exists_alookup_of_mem_keys n st.processes hp
  simp [stopServer, ha, hp, halk, ht, hw, hk]

/-- C4 witness: the corrected statement evaluated on the concrete running
state `stA`. -/
theorem stop_timeout_escalation_no_cleanup_witness :
    stopServer stA "a" timeoutStop = (true, stA) :=
  stop_timeout_escalation_no_cleanup stA "a" timeoutStop (by decide)
    (by decide) rfl rfl rfl

/-- C5 counterexample: the HTTP POST that `call_tool` issues against the
running server `a` carries no timeout at all (`requests.post(url,
json=payload)` has no `timeout=` argument), not the claimed fixed ≈10s
request timeout — so the RPC can wait unboundedly. -/
theorem call_tool_post_without_timeout_cex :
    (callTool stA "a" "t" envOk (.response 200 (some ⟨"ok"⟩))).request =
      some ⟨"http://localhost:3000/tool", "t", none⟩ ∧
    ((callTool stA "a" "t" envOk
        (.response 200 (some ⟨"ok"⟩))).request).map HttpRequest.timeoutSecs ≠
      some (some 10) := by
  decide

/-- C5 (corrected): every HTTP request `call_tool` ever issues — for any
state, server, tool and transport outcome — has an empty timeout field:
the POST is issued without an explicit timeout, so `invoke` can block
indefinitely on the RPC.  (The spawn grace interval of 1s and the stop
wait of 5s are fixed in the code; the RPC is the blocking operation with
no bound.) -/
theorem call_tool_request_has_no_timeout (st : MCPState)
    (server tool : String) (e : StartEnv) (rpc : RpcOutcome)
    (req : HttpRequest)
    (h : (callTool st server tool e rpc).request = some req) :
    req.timeoutSecs = none :=
  callToolStarted_request_no_timeout _ server tool rpc req h

/-- C5 witness: the corrected statement applied to the concrete request
issued against the running `a`. -/
theorem call_tool_request_has_no_timeout_witness :
    HttpRequest.timeoutSecs ⟨"http://localhost:3000/tool", "t", none⟩ =
      none :=
  call_tool_request_has_no_timeout stA "a" "t" envOk
    (.response 200 (some ⟨"ok"⟩)) ⟨"http://localhost:3000/tool", "t", none⟩
    (by decide)

/-- C6 counterexample: a 500 response whose body parses as JSON is
returned by `call_tool` exactly like a success (`response.json()` is
returned unconditionally — no status check), and on a transport failure
the returned error dict is `Connection refused` alone: it carries the
underlying cause but neither the server name `a` nor the tool name `t`. -/
theorem call_tool_non2xx_as_success_cex :
    (callTool stA "a" "t" envOk
        (.response 500 (some ⟨"internal server error"⟩))).result =
      .json ⟨"internal server error"⟩ ∧
    (callTool stA "a" "t" envOk
        (.transportError "Connection refused")).result =
      .errorDict "Connection refused" := by
  decide

/-- C6 (corrected): on a transport failure `call_tool` returns the dict
`error: str(e)` carrying only the underlying cause (server and tool name
appear only in the log), leaves the state unchanged and performs no
retry or restart; a non-2xx response is not detected as a failure — its
JSON body is returned unchanged, indistinguishable from success, again
with no retry and no state change. -/
theorem call_tool_failure_surface (st : MCPState)
    (server tool msg : String) (e : StartEnv) (status : Nat)
    (body : JsonVal) (port : Nat)
    (hact : alookup server st.activeServers = some port) (hp0 : port ≠ 0) :
    (callTool st server tool e (.transportError msg)).result =
      .errorDict msg ∧
    (callTool st server tool e (.transportError msg)).state = st ∧
    (callTool st server tool e (.response status (some body))).result =
      .json body ∧
    (callTool st server tool e (.response status (some body))).state =
      st := by
  have hmem : server ∈ keys st.activeServers := by
    rw [mem_keys_iff, hact]; rfl
  refine ⟨?_, ?_, ?_, ?_⟩ <;> simp [callTool, callToolStarted, hmem, hact, hp0]

/-- C6 witness: the corrected statement evaluated against the running `a`
(port 3000) for a refused connection and for a 500 response. -/
theorem call_tool_failure_surface_witness :
    (callTool stA "a" "t" envOk (.transportError "Connection refused")).result =
      .errorDict "Connection refused" ∧
    (callTool stA "a" "t" envOk (.transportError "Connection refused")).state =
      stA ∧
    (callTool stA "a" "t" envOk (.response 500 (some ⟨"oops"⟩))).result =
      .json ⟨"oops"⟩ ∧
    (callTool stA "a" "t" envOk (.response 500 (some ⟨"oops"⟩))).state =
      stA :=
  call_tool_failure_surface stA "a" "t" "Connection refused" envOk 500
    ⟨"oops"⟩ 3000 (by decide) (by decide)

/-- C7 (confirmed): in every reachable state each server name occurs at
most once in `active_servers`, and `start_server` on a name that is
already active returns `True` for the existing process without spawning
a second one — the state is untouched.  (Reachability carries the
invariant that an active name also has a `processes` entry and a
configuration entry, so the already-running guard fires.) -/
theorem at_most_one_active_entry (st : MCPState) (h : Reachable st)
    (n : String) :
    List.count n (keys st.activeServers) ≤ 1 ∧
    (n ∈ keys st.activeServers → ∀ e, startServer st n e = (true, st)) := by
  have hinv := reachable_inv st h
  exact ⟨List.nodup_iff_count_le_one.1 hinv.2.2.1 n,
    fun hn e => startServer_already_active st n e hinv hn⟩

/-- C7 witness: the invariant and the no-respawn property evaluated on
the reachable state in which `a` has just been started. -/
theorem at_most_one_active_entry_witness :
    List.count "a" (keys (startServer stInit "a" envOk).2.activeServers) ≤
      1 ∧
    startServer (startServer stInit "a" envOk).2 "a" envOk =
      (true, (startServer stInit "a" envOk).2) := by
  have h := at_most_one_active_entry (startServer stInit "a" envOk).2
    (Reachable.step (Reachable.init env0 candA)
      (Step.start stInit "a" envOk)) "a"
  exact ⟨h.1, h.2 (by decide) envOk⟩

/-- C8 (code bug): a monitor pass over two tracked servers whose
processes have both exited removes the first entry and then aborts with
`RuntimeError: dictionary changed size during iteration` (the loop pops
from the dict it is iterating), so the second dead entry is neither
examined nor removed, and the escaped exception kills the monitor thread
— contradicting the claim (and the code comment `Check every 10
seconds`) that a pass examines every tracked entry and removes each
exited one within one interval. -/
theorem monitor_pass_mutation_aborts :
    (monitorPass stBoth).2 = true ∧
    "a" ∉ keys (monitorPass stBoth).1.processes ∧
    "b" ∈ keys (monitorPass stBoth).1.processes ∧
    (alookup "b" stBoth.processes).map ProcessInfo.alive = some false := by
  decide

/-- C9 counterexample: two candidate lists whose first successfully
parsed source is the same valid-JSON-without-recognized-keys file yield
different definitions, determined by the later candidates — so the first
successfully parsed source does not alone determine the definitions;
`load_config` skips a parsed file that has neither `mcpServers` nor
`providers` and keeps scanning. -/
theorem load_config_parsed_without_keys_skipped_cex :
    loadConfig env0 [some .otherJson, some (.mcpServers [("x", cfgA)])] =
      [("x", cfgA)] ∧
    loadConfig env0 [some .otherJson, some (.mcpServers [("y", cfgB)])] =
      [("y", cfgB)] ∧
    [("x", cfgA)] ≠ ([("y", cfgB)] : List (String × ServerConfig)) := by
  decide

/-- C9 (corrected): candidates are tried in priority order and the first
one that parses AND carries a recognized top-level key (`mcpServers` or
`providers`) alone determines the definitions, with no merging; missing
or unparseable candidates and parsed candidates with neither key are
skipped alike; when no candidate qualifies the definitions are the
fixed, non-empty built-in default set (three servers); the loader is a
total function — unreadable or malformed files are logged and skipped,
nothing propagates. -/
theorem load_config_first_recognized_wins (environ : String → String)
    (rest : List (Option ConfigContent)) (s : List (String × ServerConfig))
    (ps : List (String × Bool × List String)) :
    loadConfig environ (none :: rest) = loadConfig environ rest ∧
    loadConfig environ (some .otherJson :: rest) = loadConfig environ rest ∧
    loadConfig environ (some (.mcpServers s) :: rest) = s ∧
    loadConfig environ (some (.providers ps) :: rest) =
      convertProviders environ ps ∧
    loadConfig environ [] = defaultServers environ ∧
    defaultServers environ ≠ [] := by
  refine ⟨rfl, rfl, rfl, rfl, rfl, ?_⟩
  simp [defaultServers]

/-- C10 (confirmed): if the launch of a fresh name fails inside the grace
window, `start_server` leaves the dead entry in `processes` while the
name never enters `active_servers`, so the two tables disagree (the
public status interface reports `running = False` even though a process
entry exists); the entry is removed only later, by a monitor pass (shown
here for a pass that reaches it, i.e. when the earlier tracked processes
are still alive). -/
theorem failed_launch_table_disagreement (st : MCPState) (n : String)
    (e : StartEnv) (cfg : ServerConfig) (cmd : String) (port : Nat)
    (code : Int) (hcfg : alookup n st.servers = some cfg)
    (hcmd : cfg.command = some cmd) (hna : n ∉ keys st.activeServers)
    (hnp : n ∉ keys st.processes)
    (hport : resolvePort st n e.portInUse = some port)
    (hsr : e.spawnRaises = false) (hg : e.exitsInGrace = some code)
    (halive : ∀ p ∈ st.processes, p.2.alive = true) :
    (startServer st n e).1 = false ∧
    n ∈ keys (startServer st n e).2.processes ∧
    n ∉ keys (startServer st n e).2.activeServers ∧
    (getServerStatus (startServer st n e).2 n).running = false ∧
    n ∉ keys (monitorPass (startServer st n e).2).1.processes := by
  have h1 := startServer_grace_exit st n e cfg cmd port code hcfg hcmd hna
    hport hsr hg
  have hmemS : n ∈ keys st.servers := by
    rw [mem_keys_iff, hcfg]; rfl
  have happ : dictInsert n (⟨false, code, port, false, false⟩ : ProcessInfo)
      st.processes = st.processes ++ [(n, ⟨false, code, port, false, false⟩)] :=
    dictInsert_append_of_not_mem n _ st.processes hnp
  rw [h1]
  refine ⟨rfl, ?_, ?_, ?_, ?_⟩
  · exact (mem_keys_dictInsert n n _ st.processes).2 (Or.inl rfl)
  · simpa using hna
  · simp [getServerStatus, hmemS, hna]
  · show n ∉ keys (monitorGo
      (dictInsert n (⟨false, code, port, false, false⟩ : ProcessInfo)
        st.processes) _ false).1.processes
    rw [happ, monitorGo_alive_append_dead st.processes n _ rfl halive]
    simpa [happ, dictPop_append_self n _ st.processes hnp] using hnp

/-- C10 witness: the statement evaluated on the concrete crashing launch
of `a` from the fresh state, including the cleanup by the subsequent
monitor pass. -/
theorem failed_launch_table_disagreement_witness :
    (startServer stInit "a" (envCrash "boom")).1 = false ∧
    "a" ∈ keys (startServer stInit "a" (envCrash "boom")).2.processes ∧
    "a" ∉ keys (startServer stInit "a" (envCrash "boom")).2.activeServers ∧
    (getServerStatus (startServer stInit "a" (envCrash "boom")).2
      "a").running = false ∧
    "a" ∉ keys
      (monitorPass (startServer stInit "a" (envCrash "boom")).2).1.processes :=
  failed_launch_table_disagreement stInit "a" (envCrash "boom") cfgA "npx"
    3000 1 (by decide) rfl (by decide) (by decide) rfl rfl rfl (by decide)

end MCP
